import Mathlib

/-!
# emojitransport: export of custom emoji into a content-addressed archive

A shallow embedding of `emoji/store.go` and `emoji/slack.go`.

* Go strings are Lean `String`s (text; hashed through their UTF-8 bytes, which
  is what `[]byte(s)` yields for a string holding text).
* Byte slices and file contents are `List UInt8`.
* Go `int` is `Int`; `/` on it is `Int.tdiv`.
* Go `error` values are `GoError`: a message, or a message prefix wrapping
  another error (`fmt.Errorf("...: %w", err)`).
* The collaborators the repository does not contain are parameters: the HTTP
  client is a function from the request to its answer (field `client`), the
  JSON codec, `url.ParseQuery`, the validation of `http.NewRequestWithContext`
  and the failures of the file system are the fields of `Env`.
* The standard library functions whose result the repository's behaviour
  depends on are written out: SHA-256, the verb `%x`, `filepath.Ext` (with `/`
  as the separator), `url.QueryEscape`, `url.Values.Encode`.
* State is passed explicitly: the requests handed to the client, the records
  sent on the channel, the files and the catalog the store writes.
* The two goroutines of `Run` meet in the `select` of its loop; the loop is a
  function of the events that `select` takes, in order, and it is `blocked`
  when it waits for an event and none comes. Calls of the logger are left out.
-/

set_option linter.dupNamespace false
set_option linter.unusedVariables false

namespace EmojiTransport

/-! ## Errors and bytes -/

/-- Go `error` values: a leaf message, or `fmt.Errorf(pfx ++ "%w", err)`. -/
inductive GoError where
  | base (msg : String)
  | wrap (pfx : String) (err : GoError)
deriving DecidableEq, Repr

/-- The method `Error()`: the message of the whole chain. -/
def GoError.Error : GoError → String
  | .base msg => msg
  | .wrap pfx err => pfx ++ err.Error

/-- Byte slices. -/
abbrev Bytes := List UInt8

/-- The conversion `[]byte(s)`: the UTF-8 bytes of a text. -/
def utf8 (s : String) : Bytes := s.data.flatMap String.utf8EncodeChar

/-! ## crypto/sha256 (FIPS 180-4), on 32-bit words held in `Nat` -/

namespace sha256

/-- A 32-bit constant from its two 16-bit halves. -/
def word (hi lo : Nat) : Nat := hi * 2 ^ 16 + lo

/-- Round constants (the fractional parts of the cube roots of the first 64
primes). -/
def K : List Nat :=
  [
   word 0x428a 0x2f98, word 0x7137 0x4491, word 0xb5c0 0xfbcf, word 0xe9b5 0xdba5,
   word 0x3956 0xc25b, word 0x59f1 0x11f1, word 0x923f 0x82a4, word 0xab1c 0x5ed5,
   word 0xd807 0xaa98, word 0x1283 0x5b01, word 0x2431 0x85be, word 0x550c 0x7dc3,
   word 0x72be 0x5d74, word 0x80de 0xb1fe, word 0x9bdc 0x06a7, word 0xc19b 0xf174,
   word 0xe49b 0x69c1, word 0xefbe 0x4786, word 0x0fc1 0x9dc6, word 0x240c 0xa1cc,
   word 0x2de9 0x2c6f, word 0x4a74 0x84aa, word 0x5cb0 0xa9dc, word 0x76f9 0x88da,
   word 0x983e 0x5152, word 0xa831 0xc66d, word 0xb003 0x27c8, word 0xbf59 0x7fc7,
   word 0xc6e0 0x0bf3, word 0xd5a7 0x9147, word 0x06ca 0x6351, word 0x1429 0x2967,
   word 0x27b7 0x0a85, word 0x2e1b 0x2138, word 0x4d2c 0x6dfc, word 0x5338 0x0d13,
   word 0x650a 0x7354, word 0x766a 0x0abb, word 0x81c2 0xc92e, word 0x9272 0x2c85,
   word 0xa2bf 0xe8a1, word 0xa81a 0x664b, word 0xc24b 0x8b70, word 0xc76c 0x51a3,
   word 0xd192 0xe819, word 0xd699 0x0624, word 0xf40e 0x3585, word 0x106a 0xa070,
   word 0x19a4 0xc116, word 0x1e37 0x6c08, word 0x2748 0x774c, word 0x34b0 0xbcb5,
   word 0x391c 0x0cb3, word 0x4ed8 0xaa4a, word 0x5b9c 0xca4f, word 0x682e 0x6ff3,
   word 0x748f 0x82ee, word 0x78a5 0x636f, word 0x84c8 0x7814, word 0x8cc7 0x0208,
   word 0x90be 0xfffa, word 0xa450 0x6ceb, word 0xbef9 0xa3f7, word 0xc671 0x78f2]

/-- Rotate a 32-bit word right by `n` (for `0 < n < 32`). -/
def rotr (x n : Nat) : Nat := ((x >>> n) ||| (x <<< (32 - n))) % 2 ^ 32

def ch (x y z : Nat) : Nat := (x &&& y) ^^^ ((2 ^ 32 - 1 - x) &&& z)

def maj (x y z : Nat) : Nat := (x &&& y) ^^^ (x &&& z) ^^^ (y &&& z)

def bsig0 (x : Nat) : Nat := rotr x 2 ^^^ rotr x 13 ^^^ rotr x 22

def bsig1 (x : Nat) : Nat := rotr x 6 ^^^ rotr x 11 ^^^ rotr x 25

def ssig0 (x : Nat) : Nat := rotr x 7 ^^^ rotr x 18 ^^^ (x >>> 3)

def ssig1 (x : Nat) : Nat := rotr x 17 ^^^ rotr x 19 ^^^ (x >>> 10)

/-- The eight working words. -/
structure State where
  a : Nat
  b : Nat
  c : Nat
  d : Nat
  e : Nat
  f : Nat
  g : Nat
  h : Nat
deriving DecidableEq, Repr

/-- Initial hash value. -/
def init : State :=
  { a := word 0x6a09 0xe667, b := word 0xbb67 0xae85, c := word 0x3c6e 0xf372,
    d := word 0xa54f 0xf53a, e := word 0x510e 0x527f, f := word 0x9b05 0x688c,
    g := word 0x1f83 0xd9ab, h := word 0x5be0 0xcd19 }

/-- Message padding: `0x80`, zeros up to 56 mod 64, the bit length in 8 bytes. -/
def pad (msg : Bytes) : List Nat :=
  let len := msg.length
  let bits := 8 * len
  msg.map UInt8.toNat ++ [0x80] ++ List.replicate ((119 - len % 64) % 64) 0 ++
    (List.range 8).map (fun i => (bits >>> (8 * (7 - i))) % 256)

/-- Big-endian 32-bit words of a byte string. -/
def words : Nat → List Nat → List Nat
  | 0, _ => []
  | n + 1, bs =>
    (bs.getD 0 0 * 2 ^ 24 + bs.getD 1 0 * 2 ^ 16 + bs.getD 2 0 * 2 ^ 8 + bs.getD 3 0)
      :: words n (bs.drop 4)

/-- Message schedule: extends the 16 block words by `n` more. -/
def extend : Nat → List Nat → List Nat
  | 0, w => w
  | n + 1, w =>
    let t := w.length
    extend n (w ++ [(ssig1 (w.getD (t - 2) 0) + w.getD (t - 7) 0 + ssig0 (w.getD (t - 15) 0)
      + w.getD (t - 16) 0) % 2 ^ 32])

/-- One round. -/
def round (s : State) (kw : Nat × Nat) : State :=
  let t1 := (s.h + bsig1 s.e + ch s.e s.f s.g + kw.1 + kw.2) % 2 ^ 32
  let t2 := (bsig0 s.a + maj s.a s.b s.c) % 2 ^ 32
  ⟨(t1 + t2) % 2 ^ 32, s.a, s.b, s.c, (s.d + t1) % 2 ^ 32, s.e, s.f, s.g⟩

/-- Compression of one 64-byte block into the running hash. -/
def compress (s : State) (block : List Nat) : State :=
  let w := extend 48 (words 16 block)
  let r := (K.zip w).foldl round s
  ⟨(s.a + r.a) % 2 ^ 32, (s.b + r.b) % 2 ^ 32, (s.c + r.c) % 2 ^ 32, (s.d + r.d) % 2 ^ 32,
   (s.e + r.e) % 2 ^ 32, (s.f + r.f) % 2 ^ 32, (s.g + r.g) % 2 ^ 32, (s.h + r.h) % 2 ^ 32⟩

/-- Runs the compression over `n` consecutive blocks. -/
def blocks : Nat → State → List Nat → State
  | 0, s, _ => s
  | n + 1, s, bs => blocks n (compress s (bs.take 64)) (bs.drop 64)

/-- The four bytes of a word, most significant first. -/
def be32 (x : Nat) : Bytes :=
  [UInt8.ofNat (x >>> 24 % 256), UInt8.ofNat (x >>> 16 % 256), UInt8.ofNat (x >>> 8 % 256),
   UInt8.ofNat (x % 256)]

/-- The 32-byte digest of a message. -/
def sum256 (msg : Bytes) : Bytes :=
  let p := pad msg
  let s := blocks (p.length / 64) init p
  be32 s.a ++ be32 s.b ++ be32 s.c ++ be32 s.d ++ be32 s.e ++ be32 s.f ++ be32 s.g ++ be32 s.h

/-- The running hash `sha256.New()` returns: the bytes written so far. -/
structure Digest where
  buf : Bytes
deriving DecidableEq, Repr

/-- The function `sha256.New()`. -/
def New : Digest := ⟨[]⟩

/-- The method `Write(p)`: adds data to the running hash; it never returns an
error. -/
def Digest.Write (d : Digest) (p : Bytes) : Digest × Nat × Option GoError :=
  (⟨d.buf ++ p⟩, p.length, none)

/-- The method `Sum(b)`: appends the current digest to `b`. -/
def Digest.Sum (d : Digest) (b : Bytes) : Bytes := b ++ sum256 d.buf

end sha256

/-! ## fmt and path/filepath -/

/-- A lowercase hexadecimal digit. -/
def hexDigit (n : Nat) : Char := "0123456789abcdef".data.getD n '0'

/-- The verb `%x` on a byte slice: two lowercase hex digits per byte. -/
def fmtHex (b : Bytes) : List Char :=
  b.flatMap (fun x => [hexDigit (x.toNat / 16), hexDigit (x.toNat % 16)])

/-- The scan of `filepath.Ext`: `rev` is the part of the path not yet visited,
read backwards, `acc` the suffix already passed. -/
def filepath.Ext.scan : List Char → List Char → List Char
  | [], _ => []
  | c :: rev, acc =>
    if c = '/' then [] else if c = '.' then c :: acc else filepath.Ext.scan rev (c :: acc)

/-- The function `filepath.Ext`: the suffix beginning at the final dot in the
final element of the path; empty if there is no dot. -/
def filepath.Ext (path : String) : String := ⟨filepath.Ext.scan path.data.reverse []⟩

/-! ## emoji/store.go -/

/-- One emoji's metadata (`SlackEmoji` of `slack.go`). -/
structure SlackEmoji where
  Name : String
  IsAlias : Int
  AliasFor : String
  URL : String
  TeamID : String
  UserID : String
  Created : Int
  IsBad : Bool
  UserDisplayName : String
  AvatarHas : String
  CanDelete : Bool
  Synonyms : List String
deriving DecidableEq, Repr

/-- The anonymous struct `appendToCatalog` marshals: fields `fileName` and `emoji`. -/
structure CatalogEntry where
  FileName : String
  Emoji : SlackEmoji
deriving DecidableEq, Repr

/-- An `io.Reader`: the bytes it yields, and the error it ends with instead of
`io.EOF`, if any. -/
structure Reader where
  data : Bytes
  err : Option GoError
deriving DecidableEq, Repr

/-- The file system and the JSON encoder, as far as the store uses them. A file
is addressed by its directory and its name in it (`filepath.Join(dir, name)`). -/
structure StoreEnv where
  /-- The call `os.Stat(path)`: an error, or whether the path is a directory. -/
  Stat : String → Except GoError Bool
  /-- The error of `os.Create`, if it fails. -/
  CreateErr : String → String → Option GoError
  /-- A failing write of some bytes to a file: how many bytes reached the file
  before the error, and the error. -/
  WriteErr : String → String → Bytes → Option (Nat × GoError)
  /-- The call `json.Marshal(&entry)`. -/
  Marshal : CatalogEntry → Except GoError Bytes

/-- The type `Store` of `store.go`, with the state of the two things it
writes: `catalog` is the content of the file behind the catalog handle, and
`files` the files created in `directory`, by name, latest first. -/
structure Store where
  directory : String
  catalog : Bytes
  files : List (String × Bytes)
deriving DecidableEq, Repr

/-- The name of the catalog file. -/
def catalogName : String := "emoji.catalog"

/-- The function `NewStore`; `existing` holds the files already in `path`.
`os.Create` truncates the catalog. -/
def NewStore (env : StoreEnv) (path : String) (existing : List (String × Bytes)) :
    Except GoError Store :=
  match env.Stat path with
  | .error err => .error (.wrap "checking path: " err)
  | .ok isDir =>
    if !isDir then .error (.base "path is not a directory")
    else
      match env.CreateErr path catalogName with
      | some err => .error (.wrap "create catalog file: " err)
      | none => .ok { directory := path, catalog := [], files := existing }

/-- The function `fileName` of `store.go`. -/
def fileName (url : String) : Except GoError String :=
  let hash := sha256.New
  match hash.Write (utf8 url) with
  | (_, _, some err) => .error (.wrap "write url: " err)
  | (hash, _, none) =>
    let name := hash.Sum []
    let ext := filepath.Ext url
    .ok (String.mk (fmtHex name) ++ "." ++ ext)

/-- The call `io.Copy(file, content)` onto the file `name`: what reached the
file, and the error of the copy. -/
def io.Copy (env : StoreEnv) (dir name : String) (content : Reader) : Bytes × Option GoError :=
  match env.WriteErr dir name content.data with
  | some (n, err) => (content.data.take n, some err)
  | none => (content.data, content.err)

/-- The method `writeToFile`. `os.Create` makes the file (empty) before the copy. -/
def Store.writeToFile (env : StoreEnv) (s : Store) (fileName : String) (content : Reader) :
    Except GoError Unit × Store :=
  match env.CreateErr s.directory fileName with
  | some err => (.error (.wrap "create file: " err), s)
  | none =>
    match io.Copy env s.directory fileName content with
    | (written, some err) =>
      (.error (.wrap "write to file: " err), { s with files := (fileName, written) :: s.files })
    | (written, none) => (.ok (), { s with files := (fileName, written) :: s.files })

/-- A write through the catalog handle (`s.catalog.Write`, `WriteString`). -/
def Store.catalogWrite (env : StoreEnv) (s : Store) (b : Bytes) : Option GoError × Store :=
  match env.WriteErr s.directory catalogName b with
  | some (n, err) => (some err, { s with catalog := s.catalog ++ b.take n })
  | none => (none, { s with catalog := s.catalog ++ b })

/-- The method `appendToCatalog`. -/
def Store.appendToCatalog (env : StoreEnv) (s : Store) (fileName : String) (emoji : SlackEmoji) :
    Except GoError Unit × Store :=
  let entry : CatalogEntry := { FileName := fileName, Emoji := emoji }
  match env.Marshal entry with
  | .error err => (.error (.wrap "marshal catalog entry: " err), s)
  | .ok b =>
    match s.catalogWrite env b with
    | (some err, s) => (.error (.wrap "write catalog entry: " err), s)
    | (none, s) =>
      match s.catalogWrite env (utf8 "\n") with
      | (some err, s) => (.error (.wrap "writing new line: " err), s)
      | (none, s) => (.ok (), s)

/-- The method `Store.Store`. -/
def Store.Store (env : StoreEnv) (s : Store) (emoji : SlackEmoji) (body : Reader) :
    Except GoError Unit × Store :=
  match fileName emoji.URL with
  | .error err => (.error (.wrap "compute file name: " err), s)
  | .ok name =>
    match s.writeToFile env name body with
    | (.error err, s) => (.error (.wrap "writing to file: " err), s)
    | (.ok _, s) =>
      match s.appendToCatalog env name emoji with
      | (.error err, s) => (.error (.wrap "appending to catalog: " err), s)
      | (.ok _, s) => (.ok (), s)

/-- Calls of `Store.Store` one after another, each with its record and body;
the results of the calls in order, and the store after the last. -/
def storeAll (env : StoreEnv) :
    Store → List (SlackEmoji × Reader) → List (Except GoError Unit) × Store
  | s, [] => ([], s)
  | s, (emoji, body) :: rest =>
    match s.Store env emoji body with
    | (r, s) =>
      match storeAll env s rest with
      | (rs, s) => (r :: rs, s)

/-! ## net/url and net/http, as far as `slack.go` uses them -/

/-- Go's `<` on strings: bytewise lexicographic order. -/
def strLess : Bytes → Bytes → Bool
  | [], [] => false
  | [], _ :: _ => true
  | _ :: _, [] => false
  | a :: as, b :: bs => a < b || (a == b && strLess as bs)

/-- An uppercase hexadecimal digit. -/
def upperHex (n : Nat) : Char := "0123456789ABCDEF".data.getD n '0'

/-- The test `shouldEscape(c, encodeQueryComponent)`: everything but letters,
digits and `-_.~` is escaped. -/
def url.shouldEscape (c : UInt8) : Bool :=
  !((97 ≤ c && c ≤ 122) || (65 ≤ c && c ≤ 90) || (48 ≤ c && c ≤ 57)
    || c == 45 || c == 95 || c == 46 || c == 126)

/-- The function `url.QueryEscape`. -/
def url.QueryEscape (s : String) : String :=
  ⟨(utf8 s).flatMap (fun c =>
    if c = 32 then ['+']
    else if url.shouldEscape c then ['%', upperHex (c.toNat / 16), upperHex (c.toNat % 16)]
    else [Char.ofNat c.toNat])⟩

/-- The type `url.Values`: the keys with their values, in the order the keys
were first added. -/
structure url.Values where
  entries : List (String × List String)
deriving DecidableEq, Repr

/-- The call `make(url.Values)`. -/
def url.Values.empty : url.Values := ⟨[]⟩

/-- The method `Add`: appends the value to the values of the key. -/
def url.Values.Add (v : url.Values) (key value : String) : url.Values :=
  if v.entries.any (fun kv => kv.1 == key) then
    ⟨v.entries.map (fun kv => if kv.1 = key then (kv.1, kv.2 ++ [value]) else kv)⟩
  else ⟨v.entries ++ [(key, [value])]⟩

/-- Insertion of an entry into entries sorted by key. -/
def url.Values.insertByKey (kv : String × List String) :
    List (String × List String) → List (String × List String)
  | [] => [kv]
  | x :: xs =>
    if strLess (utf8 kv.1) (utf8 x.1) then kv :: x :: xs
    else x :: url.Values.insertByKey kv xs

/-- The method `Encode`: `key=value` pairs, both escaped, sorted by key and
joined by `&`. -/
def url.Values.Encode (v : url.Values) : String :=
  let sorted := v.entries.foldr url.Values.insertByKey []
  let pairs := sorted.flatMap (fun kv =>
    kv.2.map (fun value => url.QueryEscape kv.1 ++ "=" ++ url.QueryEscape value))
  "&".intercalate pairs

/-- The parts of a `url.URL` that occur here. -/
structure url.URL where
  Scheme : String
  Host : String
  Path : String
  RawQuery : String
deriving DecidableEq, Repr

/-- The method `Query`: parses `RawQuery` into a new `Values`; the URL itself is
left as it is. `parseQuery` is `url.ParseQuery`. -/
def url.URL.Query (parseQuery : String → url.Values) (u : url.URL) : url.Values :=
  parseQuery u.RawQuery

/-- The method `String` of a URL with scheme, host, path and query. -/
def url.URL.String (u : url.URL) : String :=
  u.Scheme ++ "://" ++ u.Host ++ u.Path ++ (if u.RawQuery = "" then "" else "?" ++ u.RawQuery)

/-- The address of the listing endpoint. -/
def adminListAddress : String := "https://dd.slack.com/api/emoji.adminList"

/-- The value `url.Parse(adminListAddress)` returns. -/
def adminListURL : url.URL :=
  { Scheme := "https", Host := "dd.slack.com", Path := "/api/emoji.adminList", RawQuery := "" }

/-- An `http.Request`: method, address, header and body (`none` for `nil`). -/
structure Request where
  Method : String
  URL : String
  Header : url.Values
  Body : Option String
deriving DecidableEq, Repr

/-! ## emoji/config.go and emoji/slack.go -/

structure SlackConfig where
  Token : String
  Route : String
  Cookie : String
deriving DecidableEq, Repr

structure ConfluenceConfig where
  Token : String
deriving DecidableEq, Repr

/-- The type `Config`. -/
structure Config where
  Directory : String
  Slack : SlackConfig
  Confluence : ConfluenceConfig
deriving DecidableEq, Repr

/-- The field `paging` of a `ListResponse`. -/
structure Paging where
  Count : Int
  Total : Int
  Page : Int
  Pages : Int
deriving DecidableEq, Repr

/-- The type `ListResponse`. -/
structure ListResponse where
  OK : Bool
  Emoji : List SlackEmoji
  Paging : Paging
deriving DecidableEq, Repr

/-- The libraries and the file system around the exporter. -/
structure Env extends StoreEnv where
  /-- The error of `http.NewRequestWithContext` for a method and an address, if
  it rejects them. -/
  NewRequestErr : String → String → Option GoError
  /-- The function `url.ParseQuery`. -/
  ParseQuery : String → url.Values
  /-- The call `json.Unmarshal(body, &list)`. -/
  Unmarshal : Bytes → Except GoError ListResponse

/-- The function `http.NewRequestWithContext`. -/
def http.NewRequestWithContext (env : Env) (method address : String) (body : Option String) :
    Except GoError Request :=
  match env.NewRequestErr method address with
  | some err => .error err
  | none => .ok { Method := method, URL := address, Header := url.Values.empty, Body := body }

/-- The type `SlackExporter`: the configuration and the HTTP client, where
`client` is `client.Do` and answers a request with an error or with the body of
the response. The store is passed as state; logging is left out. -/
structure SlackExporter where
  config : Config
  client : Request → Except GoError Reader

/-- The first part of `getEmojiPage`: the request it builds. The value of
`u.Query()` with the route added is not stored anywhere. -/
def SlackExporter.getEmojiPage.request (env : Env) (e : SlackExporter) (page : Int) (size : Int) :
    Except GoError Request :=
  let form := url.Values.empty
  let form := form.Add "token" e.config.Slack.Token
  let form := form.Add "page" (toString page)
  let u := adminListURL
  let _ := (u.Query env.ParseQuery).Add "slack_route" e.config.Slack.Route
  match http.NewRequestWithContext env "POST" u.String (some form.Encode) with
  | .error err => .error (.wrap "create request: " err)
  | .ok req =>
    let req := { req with Header := url.Values.empty }
    .ok { req with Header := req.Header.Add "Content-Type" "application/x-www-form-urlencoded" }

/-- The method `getEmojiPage`; `requests` are the requests handed to the
client so far, oldest first. -/
def SlackExporter.getEmojiPage (env : Env) (e : SlackExporter) (page : Int) (size : Int)
    (requests : List Request) : Except GoError ListResponse × List Request :=
  match SlackExporter.getEmojiPage.request env e page size with
  | .error err => (.error err, requests)
  | .ok req =>
    match e.client req with
    | .error err => (.error (.wrap "do request: " err), requests ++ [req])
    | .ok res =>
      match res.err with
      | some err => (.error (.wrap "read response body: " err), requests ++ [req])
      | none =>
        match env.Unmarshal res.data with
        | .error err => (.error (.wrap "unmarshal response: " err), requests ++ [req])
        | .ok list => (.ok list, requests ++ [req])

/-- The method `checkEmojiCount`. -/
def SlackExporter.checkEmojiCount (env : Env) (e : SlackExporter) (requests : List Request) :
    Except GoError Int × List Request :=
  let page := 1
  let size := 1
  match e.getEmojiPage env page size requests with
  | (.error err, requests) => (.error (.wrap "first list request: " err), requests)
  | (.ok res, requests) => (.ok res.Paging.Total, requests)

/-- The constant `pageSize` of `listEmoji`. -/
def pageSize : Int := 100

/-- What the listing has done: the requests handed to the client and the
records sent on `emojiC`, both oldest first. -/
structure Listing where
  requests : List Request
  sink : List SlackEmoji
deriving DecidableEq, Repr

/-- The loop of `listEmoji`, from `page` on; `none` when the fuel runs out. -/
def SlackExporter.listEmoji.loop (env : Env) (e : SlackExporter) (total : Int) :
    Nat → Int → Listing → Option (Except GoError Unit × Listing)
  | 0, _, _ => none
  | fuel + 1, page, st =>
    if page < total.tdiv pageSize then
      match e.getEmojiPage env page pageSize st.requests with
      | (.error err, requests) =>
        some (.error (.wrap ("list request for page #" ++ toString page ++ ": ") err),
          { st with requests := requests })
      | (.ok list, requests) =>
        SlackExporter.listEmoji.loop env e total fuel (page + 1)
          { requests := requests, sink := st.sink ++ list.Emoji }
    else some (.ok (), st)

/-- The method `listEmoji`; every send on `emojiC` is taken by the receiver. -/
def SlackExporter.listEmoji (env : Env) (e : SlackExporter) (total : Int) (st : Listing) :
    Option (Except GoError Unit × Listing) :=
  SlackExporter.listEmoji.loop env e total ((total.tdiv pageSize).toNat + 1) 1 st

/-- What the `select` in the loop of `Run` takes. -/
inductive Event where
  /-- The case `err := <-errC`. -/
  | listErr (err : GoError)
  /-- The case `<-ctx.Done()`; `cause` is the value of `ctx.Err()`. -/
  | done (cause : GoError)
  /-- The case `emoji = <-emojiC`. -/
  | emoji (emoji : SlackEmoji)
deriving DecidableEq, Repr

/-- How `Run` ends: it returns (`nil` or an error), or it waits in `select`
for an event that never comes. -/
inductive Outcome where
  | returned (err : Option GoError)
  | blocked
deriving DecidableEq, Repr

/-- What `Run` has done: the store, the requests of `checkEmojiCount`, the
download requests handed to the client and the records passed to
`Store.Store`, all oldest first. -/
structure RunState where
  store : Store
  requests : List Request
  downloads : List Request
  stored : List SlackEmoji
deriving DecidableEq, Repr

/-- The body of the loop of `Run` after the `select`: the download of a
record and its storage; the error it returns with, if any. -/
def SlackExporter.Run.body (env : Env) (e : SlackExporter) (emoji : SlackEmoji) (st : RunState) :
    Option GoError × RunState :=
  match http.NewRequestWithContext env "GET" emoji.URL none with
  | .error err => (some (.wrap "create request: " err), st)
  | .ok req =>
    match e.client req with
    | .error err => (some (.wrap "do request: " err), { st with downloads := st.downloads ++ [req] })
    | .ok res =>
      match st.store.Store env.toStoreEnv emoji res with
      | (.error err, store) =>
        (some (.wrap "store emoji: " err),
          { st with store := store, downloads := st.downloads ++ [req],
                    stored := st.stored ++ [emoji] })
      | (.ok _, store) =>
        (none,
          { st with store := store, downloads := st.downloads ++ [req],
                    stored := st.stored ++ [emoji] })

/-- The loop `for i := 0; i < total; i += 1` of `Run`, from `i` on, over the
events its `select` takes in order. -/
def SlackExporter.Run.loop (env : Env) (e : SlackExporter) (total : Int) :
    Int → List Event → RunState → Outcome × RunState
  | i, [], st => if i < total then (.blocked, st) else (.returned none, st)
  | i, ev :: rest, st =>
    if i < total then
      match ev with
      | .listErr err => (.returned (some (.wrap "list request: " err)), st)
      | .done cause => (.returned (some cause), st)
      | .emoji emoji =>
        match SlackExporter.Run.body env e emoji st with
        | (some err, st) => (.returned (some err), st)
        | (none, st) => SlackExporter.Run.loop env e total (i + 1) rest st
    else (.returned none, st)

/-- The goroutine of `Run`: the events it offers the loop, in order (the
channels are unbuffered, so the error comes after every record sent), and the
requests handed to the client once it has run. -/
def SlackExporter.Run.producer (env : Env) (e : SlackExporter) (total : Int)
    (requests : List Request) : List Event × List Request :=
  match e.listEmoji env total { requests := requests, sink := [] } with
  | none => ([], requests)
  | some (.ok _, st) => (st.sink.map Event.emoji, st.requests)
  | some (.error err, st) =>
    (st.sink.map Event.emoji ++ [Event.listErr (.wrap "list emoji: " err)], st.requests)

/-- The events the loop takes: those of the goroutine, unless the context is
done; `cancel = some (n, cause)` is a context that is done with `ctx.Err() =
cause` and whose case the `select` takes after `n` events of the goroutine. -/
def SlackExporter.Run.events (offered : List Event) : Option (Nat × GoError) → List Event
  | none => offered
  | some (n, cause) => offered.take n ++ [Event.done cause]

/-- The method `Run` on a store. -/
def SlackExporter.Run (env : Env) (e : SlackExporter) (cancel : Option (Nat × GoError))
    (store : Store) : Outcome × RunState :=
  match e.checkEmojiCount env [] with
  | (.error err, requests) =>
    (.returned (some (.wrap "check emoji count: " err)),
      { store := store, requests := requests, downloads := [], stored := [] })
  | (.ok total, requests) =>
    let offered := (SlackExporter.Run.producer env e total requests).1
    SlackExporter.Run.loop env e total 0 (SlackExporter.Run.events offered cancel)
      { store := store, requests := requests, downloads := [], stored := [] }

/-! ## Names for what the statements below speak of -/

/-- The header `getEmojiPage` sets. -/
def formHeader : url.Values := ⟨[("Content-Type", ["application/x-www-form-urlencoded"])]⟩

/-- The listing request for a page, spelled out: what `getEmojiPage` hands to
the client when the request can be built. -/
def listRequest (e : SlackExporter) (page : Int) : Request :=
  { Method := "POST", URL := adminListAddress, Header := formHeader,
    Body := some (((url.Values.empty.Add "token" e.config.Slack.Token).Add "page"
      (toString page)).Encode) }

/-- The answer of `getEmojiPage` for a page of `pageSize` records. -/
def pageResult (env : Env) (e : SlackExporter) (page : Int) : Except GoError ListResponse :=
  (e.getEmojiPage env page pageSize []).1

/-- The records of the answer for a page; none when the request fails. -/
def pageEmoji (env : Env) (e : SlackExporter) (page : Int) : List SlackEmoji :=
  match pageResult env e page with
  | .ok list => list.Emoji
  | .error _ => []

/-- The page numbers `first, first + 1, ..., first + n - 1`. -/
def pagesFrom (first : Int) (n : Nat) : List Int :=
  (List.range n).map (fun (i : Nat) => first + (i : Int))

/-- The download request of `Run` for a record. -/
def downloadRequest (emoji : SlackEmoji) : Request :=
  { Method := "GET", URL := emoji.URL, Header := url.Values.empty, Body := none }

/-- Whether an event is a record arriving. -/
def Event.isEmoji : Event → Bool
  | .emoji _ => true
  | _ => false

/-- Whether a URL's query string holds the parameter `key=value` (escaped as
`url.Values.Encode` writes it). -/
def hasQueryParam (rawQuery key value : String) : Bool :=
  (rawQuery.splitOn "&").contains (url.QueryEscape key ++ "=" ++ url.QueryEscape value)

/-! ## A sample environment, for evaluating the definitions -/

namespace Sample

/-- A record with a name and a URL. -/
def emoji (name address : String) : SlackEmoji :=
  { Name := name, IsAlias := 0, AliasFor := "", URL := address, TeamID := "T1", UserID := "U1",
    Created := 0, IsBad := false, UserDisplayName := "", AvatarHas := "", CanDelete := false,
    Synonyms := [] }

def parrot : SlackEmoji := emoji "parrot" "https://x/parrot.gif"

def foo : SlackEmoji := emoji "foo" "https://x/img.png"

def shrug : SlackEmoji := emoji "shrug" "https://x/shrug.png"

/-- The configuration: token `xoxs-1`, route `T0001`. -/
def config : Config :=
  { Directory := "out", Slack := { Token := "xoxs-1", Route := "T0001", Cookie := "" },
    Confluence := { Token := "" } }

/-- A server whose answer to a listing request is the form it received, and
to a download the address; with `failing = some body`, the listing request
with that form fails in transport. -/
def client (failing : Option String) (req : Request) : Except GoError Reader :=
  if req.Method = "GET" then .ok { data := utf8 req.URL, err := none }
  else if req.Body = failing then .error (.base "connection reset")
  else .ok { data := utf8 (req.Body.getD ""), err := none }

/-- An exporter with the sample configuration. -/
def exporter (failing : Option String) : SlackExporter :=
  { config := config, client := client failing }

/-- The answer of the sample server for page 1: two records. -/
def page1 (total : Int) : ListResponse :=
  { OK := true, Emoji := [parrot, foo],
    Paging := { Count := 2, Total := total, Page := 1, Pages := 3 } }

/-- The answer for page 2: one record. -/
def page2 (total : Int) : ListResponse :=
  { OK := true, Emoji := [shrug], Paging := { Count := 1, Total := total, Page := 2, Pages := 3 } }

/-- The answer for every other page: no record. -/
def pageEmpty (total : Int) : ListResponse :=
  { OK := true, Emoji := [], Paging := { Count := 0, Total := total, Page := 0, Pages := 3 } }

/-- A decoder for the answers of the sample server, each reporting `total`. -/
def unmarshal (total : Int) (body : Bytes) : Except GoError ListResponse :=
  if body = utf8 "page=1&token=xoxs-1" then .ok (page1 total)
  else if body = utf8 "page=2&token=xoxs-1" then .ok (page2 total)
  else .ok (pageEmpty total)

/-- An encoder that writes the file name and the record's name. -/
def marshal (entry : CatalogEntry) : Except GoError Bytes :=
  .ok (utf8 ("\x7b\"fileName\":\"" ++ entry.FileName ++ "\",\"emoji\":\x7b\"name\":\""
    ++ entry.Emoji.Name ++ "\"\x7d\x7d"))

/-- A file system and libraries in which nothing fails. -/
def env (total : Int) : Env :=
  { Stat := fun _ => .ok true
    CreateErr := fun _ _ => none
    WriteErr := fun _ _ _ => none
    Marshal := marshal
    NewRequestErr := fun _ _ => none
    ParseQuery := fun _ => url.Values.empty
    Unmarshal := unmarshal total }

/-- The store `NewStore` makes in the empty directory `out`. -/
def store : Store := { directory := "out", catalog := [], files := [] }

end Sample

deriving instance DecidableEq for Except

/-! ## Facts about `fileName` -/

theorem hexDigit_injective : ∀ a < 16, ∀ b < 16, hexDigit a = hexDigit b → a = b := by
  decide

theorem hexPair_injective (x y : UInt8)
    (h1 : hexDigit (x.toNat / 16) = hexDigit (y.toNat / 16))
    (h2 : hexDigit (x.toNat % 16) = hexDigit (y.toNat % 16)) : x = y := by
  have hx : x.toNat < 256 := x.val.isLt
  have hy : y.toNat < 256 := y.val.isLt
  have e1 := hexDigit_injective _ (by omega) _ (by omega) h1
  have e2 := hexDigit_injective _ (Nat.mod_lt _ (by norm_num)) _ (Nat.mod_lt _ (by norm_num)) h2
  have : x.toNat = y.toNat := by omega
  cases x with | mk vx => cases y with | mk vy =>
  simp only [UInt8.toNat] at this
  congr
  exact BitVec.eq_of_toNat_eq this

theorem fmtHex_append_inj : ∀ (b1 b2 : Bytes) (r1 r2 : List Char),
    b1.length = b2.length → fmtHex b1 ++ r1 = fmtHex b2 ++ r2 → b1 = b2
  | [], [], _, _, _, _ => rfl
  | [], _ :: _, _, _, h, _ => by simp at h
  | _ :: _, [], _, _, h, _ => by simp at h
  | x :: xs, y :: ys, r1, r2, h, heq => by
    simp only [fmtHex, List.flatMap_cons, List.cons_append, List.nil_append, List.append_assoc,
      List.cons.injEq] at heq
    obtain ⟨h1, h2, h3⟩ := heq
    have := fmtHex_append_inj xs ys r1 r2 (by simpa using h) h3
    rw [hexPair_injective x y h1 h2, this]

theorem be32_length (x : Nat) : (sha256.be32 x).length = 4 := rfl

theorem sum256_length (msg : Bytes) : (sha256.sum256 msg).length = 32 := by
  simp only [sha256.sum256, List.length_append, be32_length]

theorem Digest_Sum_New_Write (p : Bytes) :
    (sha256.New.Write p).1.Sum [] = sha256.sum256 p := by
  show [] ++ sha256.sum256 ([] ++ p) = sha256.sum256 p
  rw [List.nil_append, List.nil_append]

theorem fileName_unfold (url : String) :
    fileName url = .ok (String.mk (fmtHex ((sha256.New.Write (utf8 url)).1.Sum []))
      ++ "." ++ filepath.Ext url) := rfl

theorem fileName_eq (url : String) :
    fileName url
      = .ok (String.mk (fmtHex (sha256.sum256 (utf8 url))) ++ "." ++ filepath.Ext url) := by
  rw [fileName_unfold, Digest_Sum_New_Write]


/-- C2, at the URL of the example: `fileName` returns the hex digest followed
by two dots and `png`, because `filepath.Ext` already yields `.png` and the
format `%x.%s` adds a dot of its own; the name is not the digest followed by
exactly `.png`. -/
theorem fileName_img_png_has_two_dots :
    fileName "https://x/img.png"
        = .ok "2b253aa852d92ba4c2ea9e9afdf9beb0b98c599896de13ca5d73c476a5ca6b9a..png"
      ∧ filepath.Ext "https://x/img.png" = ".png"
      ∧ fileName "https://x/img.png"
        ≠ .ok (String.mk (fmtHex (sha256.sum256 (utf8 "https://x/img.png"))) ++ ".png") := by
  decide!

/-- C9: `fileName` never returns an error, gives one name per URL, and gives
different names to two URLs whose SHA-256 digests differ, whatever their
extensions. -/
theorem fileName_deterministic_and_distinct (u1 u2 : String) :
    ∃ n1 n2, fileName u1 = .ok n1 ∧ fileName u2 = .ok n2
      ∧ (u1 = u2 → n1 = n2)
      ∧ (sha256.sum256 (utf8 u1) ≠ sha256.sum256 (utf8 u2) → n1 ≠ n2) := by
  refine ⟨_, _, fileName_eq u1, fileName_eq u2, ?_, ?_⟩
  · intro h
    rw [h]
  · intro hne heq
    apply hne
    have hdata := congrArg String.data heq
    simp only [String.data_append, List.append_assoc] at hdata
    exact fmtHex_append_inj _ _ _ _ (by rw [sum256_length, sum256_length]) hdata

/-- C9 at two URLs with the same extension. -/
theorem fileName_deterministic_and_distinct_witness :
    sha256.sum256 (utf8 "https://x/a.png") ≠ sha256.sum256 (utf8 "https://y/a.png")
      ∧ ∃ n1 n2, fileName "https://x/a.png" = .ok n1 ∧ fileName "https://y/a.png" = .ok n2
          ∧ n1 ≠ n2 :=
  ⟨by decide!,
    match fileName_deterministic_and_distinct "https://x/a.png" "https://y/a.png" with
    | ⟨n1, n2, h1, h2, _, h⟩ => ⟨n1, n2, h1, h2, h (by decide!)⟩⟩

/-! ## Facts about the store -/

theorem io_Copy_ok (env : StoreEnv) (dir name : String) (content : Reader) (written : Bytes)
    (h : io.Copy env dir name content = (written, none)) :
    written = content.data ∧ content.err = none := by
  unfold io.Copy at h
  split at h
  · simp at h
  · simp only [Prod.mk.injEq] at h
    exact ⟨h.1.symm, h.2⟩

theorem writeToFile_ok (env : StoreEnv) (s s1 : Store) (name : String) (content : Reader)
    (h : s.writeToFile env name content = (.ok (), s1)) :
    s1 = { s with files := (name, content.data) :: s.files } ∧ content.err = none := by
  unfold Store.writeToFile at h
  split at h
  · simp at h
  · split at h
    · simp at h
    · rename_i written hcopy
      obtain ⟨hw, he⟩ := io_Copy_ok env _ _ _ _ hcopy
      simp only [Prod.mk.injEq, true_and] at h
      subst hw
      exact ⟨h.symm, he⟩

theorem catalogWrite_ok (env : StoreEnv) (s s1 : Store) (b : Bytes)
    (h : s.catalogWrite env b = (none, s1)) : s1 = { s with catalog := s.catalog ++ b } := by
  unfold Store.catalogWrite at h
  split at h
  · simp at h
  · simp only [Prod.mk.injEq, true_and] at h
    exact h.symm

theorem appendToCatalog_ok (env : StoreEnv) (s s1 : Store) (name : String) (emoji : SlackEmoji)
    (h : s.appendToCatalog env name emoji = (.ok (), s1)) :
    ∃ b, env.Marshal { FileName := name, Emoji := emoji } = .ok b
      ∧ s1 = { s with catalog := s.catalog ++ (b ++ utf8 "\n") } := by
  unfold Store.appendToCatalog at h
  simp only at h
  split at h
  · simp at h
  · rename_i b hb
    split at h
    · simp at h
    · rename_i s2 h2
      split at h
      · simp at h
      · rename_i s3 h3
        have e2 := catalogWrite_ok env _ _ _ h2
        have e3 := catalogWrite_ok env _ _ _ h3
        simp only [Prod.mk.injEq, true_and] at h
        refine ⟨b, hb, ?_⟩
        rw [← h, e3, e2]
        simp

theorem Store_ok (env : StoreEnv) (s s1 : Store) (emoji : SlackEmoji) (body : Reader)
    (h : s.Store env emoji body = (.ok (), s1)) :
    ∃ name b, fileName emoji.URL = .ok name
      ∧ env.Marshal { FileName := name, Emoji := emoji } = .ok b
      ∧ body.err = none
      ∧ s1 = { s with catalog := s.catalog ++ (b ++ utf8 "\n"),
                      files := (name, body.data) :: s.files } := by
  unfold Store.Store at h
  split at h
  · simp at h
  · rename_i name hname
    split at h
    · simp at h
    · rename_i s2 h2
      split at h
      · simp at h
      · rename_i s3 h3
        obtain ⟨e2, herr⟩ := writeToFile_ok env _ _ _ _ h2
        obtain ⟨b, hb, e3⟩ := appendToCatalog_ok env _ _ _ _ h3
        simp only [Prod.mk.injEq, true_and] at h
        refine ⟨name, b, hname, hb, herr, ?_⟩
        rw [← h, e3, e2]


theorem NewStore_ok (env : StoreEnv) (path : String) (existing : List (String × Bytes))
    (s : Store) (h : NewStore env path existing = .ok s) :
    s = { directory := path, catalog := [], files := existing } := by
  unfold NewStore at h
  split at h
  · simp at h
  · split at h
    · simp at h
    · split at h
      · simp at h
      · simp only [Except.ok.injEq] at h
        exact h.symm

/-- What a run of successful `Store.Store` calls leaves, from any store. -/
theorem storeAll_ok (env : StoreEnv) : ∀ (items : List (SlackEmoji × Reader)) (s : Store),
    (∀ r ∈ (storeAll env s items).1, r = .ok ()) →
    ∃ out : List (String × Bytes),
      List.Forall₂ (fun it nl => fileName it.1.URL = .ok nl.1
        ∧ env.Marshal { FileName := nl.1, Emoji := it.1 } = .ok nl.2 ∧ it.2.err = none) items out
      ∧ (storeAll env s items).2.catalog
          = s.catalog ++ out.flatMap (fun nl => nl.2 ++ utf8 "\n")
      ∧ (storeAll env s items).2.files
          = (List.zipWith (fun it nl => (nl.1, it.2.data)) items out).reverse ++ s.files
  | [], s, _ => ⟨[], List.Forall₂.nil, by simp [storeAll], by simp [storeAll]⟩
  | (emoji, body) :: rest, s, h => by
    cases hst : s.Store env emoji body with
    | mk r s1 =>
      have hall : (storeAll env s ((emoji, body) :: rest)).1 = r :: (storeAll env s1 rest).1
          ∧ (storeAll env s ((emoji, body) :: rest)).2 = (storeAll env s1 rest).2 := by
        simp [storeAll, hst]
      rw [hall.1] at h
      have hr : r = .ok () := h r (List.mem_cons_self _ _)
      subst hr
      obtain ⟨name, b, hname, hb, herr, hs1⟩ := Store_ok env s s1 emoji body hst
      obtain ⟨out, hf, hcat, hfiles⟩ :=
        storeAll_ok env rest s1 (fun r hr => h r (List.mem_cons_of_mem _ hr))
      refine ⟨(name, b) :: out, List.Forall₂.cons ⟨hname, hb, herr⟩ hf, ?_, ?_⟩
      · rw [hall.2, hcat, hs1]
        simp [List.flatMap_cons]
      · rw [hall.2, hfiles, hs1]
        simp

/-- C3: records stored one after another into a freshly constructed store, all
calls succeeding: the catalog is, in the order of the calls, the JSON of the
entry (`fileName` of the record's URL, the record) of each call followed by one
newline, and nothing else; and the files created, latest first, are one per
call, named `fileName` of the record's URL and holding the whole body of that
call, in front of the files that were there before. -/
theorem storeAll_fresh_catalog_and_files (env : StoreEnv) (path : String)
    (existing : List (String × Bytes)) (s : Store) (items : List (SlackEmoji × Reader))
    (hnew : NewStore env path existing = .ok s)
    (hok : ∀ r ∈ (storeAll env s items).1, r = .ok ()) :
    ∃ out : List (String × Bytes),
      List.Forall₂ (fun it nl => fileName it.1.URL = .ok nl.1
        ∧ env.Marshal { FileName := nl.1, Emoji := it.1 } = .ok nl.2 ∧ it.2.err = none) items out
      ∧ (storeAll env s items).2.catalog = out.flatMap (fun nl => nl.2 ++ [10])
      ∧ (storeAll env s items).2.files
          = (List.zipWith (fun it nl => (nl.1, it.2.data)) items out).reverse ++ existing := by
  obtain ⟨out, hf, hcat, hfiles⟩ := storeAll_ok env items s hok
  have hs := NewStore_ok env path existing s hnew
  refine ⟨out, hf, ?_, ?_⟩
  · rw [hcat, hs]
    rfl
  · rw [hfiles, hs]


/-- C3 for two records stored into the store made in the empty directory `out`. -/
theorem storeAll_fresh_catalog_and_files_witness :
    NewStore (Sample.env 2).toStoreEnv "out" [] = .ok Sample.store
      ∧ (∀ r ∈ (storeAll (Sample.env 2).toStoreEnv Sample.store
            [(Sample.foo, ⟨[1, 2, 3], none⟩), (Sample.parrot, ⟨[4, 5], none⟩)]).1, r = .ok ())
      ∧ ∃ out : List (String × Bytes),
          List.Forall₂ (fun it nl => fileName it.1.URL = .ok nl.1
            ∧ Sample.marshal { FileName := nl.1, Emoji := it.1 } = .ok nl.2 ∧ it.2.err = none)
            [(Sample.foo, (⟨[1, 2, 3], none⟩ : Reader)), (Sample.parrot, ⟨[4, 5], none⟩)] out
          ∧ (storeAll (Sample.env 2).toStoreEnv Sample.store
              [(Sample.foo, ⟨[1, 2, 3], none⟩), (Sample.parrot, ⟨[4, 5], none⟩)]).2.catalog
              = out.flatMap (fun nl => nl.2 ++ [10])
          ∧ (storeAll (Sample.env 2).toStoreEnv Sample.store
              [(Sample.foo, ⟨[1, 2, 3], none⟩), (Sample.parrot, ⟨[4, 5], none⟩)]).2.files
              = (List.zipWith (fun it nl => (nl.1, it.2.data))
                  [(Sample.foo, (⟨[1, 2, 3], none⟩ : Reader)), (Sample.parrot, ⟨[4, 5], none⟩)]
                  out).reverse ++ [] :=
  ⟨by decide, by decide!,
    storeAll_fresh_catalog_and_files (Sample.env 2).toStoreEnv "out" [] Sample.store
      [(Sample.foo, ⟨[1, 2, 3], none⟩), (Sample.parrot, ⟨[4, 5], none⟩)] (by decide) (by decide!)⟩

/-! ## Facts about the listing -/

theorem request_size_irrelevant (env : Env) (e : SlackExporter) (page size size' : Int) :
    SlackExporter.getEmojiPage.request env e page size
      = SlackExporter.getEmojiPage.request env e page size' := rfl

theorem request_eq (env : Env) (e : SlackExporter) (page size : Int)
    (hpost : env.NewRequestErr "POST" adminListAddress = none) :
    SlackExporter.getEmojiPage.request env e page size = .ok (listRequest e page) := by
  have hu : adminListURL.String = adminListAddress := by decide
  simp only [SlackExporter.getEmojiPage.request, http.NewRequestWithContext, hu, hpost]
  rfl

theorem getEmojiPage_result (env : Env) (e : SlackExporter) (page size : Int)
    (requests : List Request) :
    (e.getEmojiPage env page size requests).1 = pageResult env e page := by
  unfold pageResult SlackExporter.getEmojiPage
  rw [request_size_irrelevant env e page size pageSize]
  cases SlackExporter.getEmojiPage.request env e page pageSize with
  | error err => rfl
  | ok req =>
    simp only
    cases e.client req with
    | error err => rfl
    | ok res =>
      simp only
      cases res.err with
      | some err => rfl
      | none =>
        simp only
        cases env.Unmarshal res.data <;> rfl

theorem getEmojiPage_requests (env : Env) (e : SlackExporter) (page size : Int)
    (requests : List Request) (hpost : env.NewRequestErr "POST" adminListAddress = none) :
    (e.getEmojiPage env page size requests).2 = requests ++ [listRequest e page] := by
  unfold SlackExporter.getEmojiPage
  rw [request_eq env e page size hpost]
  simp only
  cases e.client (listRequest e page) with
  | error err => rfl
  | ok res =>
    simp only
    cases res.err with
    | some err => rfl
    | none =>
      simp only
      cases env.Unmarshal res.data <;> rfl

theorem pagesFrom_succ (first : Int) (n : Nat) :
    pagesFrom first (n + 1) = first :: pagesFrom (first + 1) n := by
  simp only [pagesFrom, List.range_succ_eq_map, List.map_cons, List.map_map, Nat.cast_zero,
    add_zero]
  congr 1
  apply List.map_congr_left
  intro i _
  simp only [Function.comp, Nat.succ_eq_add_one, Nat.cast_add, Nat.cast_one]
  omega

theorem pagesFrom_zero (first : Int) : pagesFrom first 0 = [] := rfl

theorem pagesFrom_one (first : Int) : pagesFrom first 1 = [first] := by
  rw [pagesFrom_succ, pagesFrom_zero]

theorem pageEmoji_ok (env : Env) (e : SlackExporter) (page : Int) (list : ListResponse)
    (h : pageResult env e page = .ok list) : pageEmoji env e page = list.Emoji := by
  simp [pageEmoji, h]

theorem loop_done (env : Env) (e : SlackExporter) (total : Int) (fuel : Nat) (page : Int)
    (st : Listing) (h : ¬ page < total.tdiv pageSize) :
    SlackExporter.listEmoji.loop env e total (fuel + 1) page st = some (.ok (), st) := by
  simp [SlackExporter.listEmoji.loop, h]

theorem loop_step_ok (env : Env) (e : SlackExporter) (total : Int) (fuel : Nat) (page : Int)
    (st : Listing) (list : ListResponse) (h : page < total.tdiv pageSize)
    (hres : pageResult env e page = .ok list) :
    SlackExporter.listEmoji.loop env e total (fuel + 1) page st
      = SlackExporter.listEmoji.loop env e total fuel (page + 1)
          { requests := (e.getEmojiPage env page pageSize st.requests).2,
            sink := st.sink ++ list.Emoji } := by
  have h1 := getEmojiPage_result env e page pageSize st.requests
  rw [hres] at h1
  cases hg : e.getEmojiPage env page pageSize st.requests with
  | mk r reqs =>
    rw [hg] at h1
    simp only at h1
    subst h1
    simp [SlackExporter.listEmoji.loop, h, hg]

theorem loop_step_error (env : Env) (e : SlackExporter) (total : Int) (fuel : Nat) (page : Int)
    (st : Listing) (err : GoError) (h : page < total.tdiv pageSize)
    (hres : pageResult env e page = .error err) :
    SlackExporter.listEmoji.loop env e total (fuel + 1) page st
      = some (.error (.wrap ("list request for page #" ++ toString page ++ ": ") err),
          { st with requests := (e.getEmojiPage env page pageSize st.requests).2 }) := by
  have h1 := getEmojiPage_result env e page pageSize st.requests
  rw [hres] at h1
  cases hg : e.getEmojiPage env page pageSize st.requests with
  | mk r reqs =>
    rw [hg] at h1
    simp only at h1
    subst h1
    simp [SlackExporter.listEmoji.loop, h, hg]

/-- The loop when every page it asks for is answered. -/
theorem loop_all_ok (env : Env) (e : SlackExporter) (total : Int)
    (hpost : env.NewRequestErr "POST" adminListAddress = none) :
    ∀ (n : Nat) (page : Int) (st : Listing) (fuel : Nat), n < fuel →
      (total.tdiv pageSize - page).toNat = n →
      (∀ p, page ≤ p → p < total.tdiv pageSize → ∃ list, pageResult env e p = .ok list) →
      SlackExporter.listEmoji.loop env e total fuel page st
        = some (.ok (), { requests := st.requests ++ (pagesFrom page n).map (listRequest e),
                          sink := st.sink ++ (pagesFrom page n).flatMap (pageEmoji env e) })
  | 0, page, st, fuel, hfuel, hn, _ => by
    obtain ⟨f, rfl⟩ : ∃ f, fuel = f + 1 := ⟨fuel - 1, by omega⟩
    rw [loop_done env e total f page st (by omega), pagesFrom_zero]
    simp
  | n + 1, page, st, fuel, hfuel, hn, hall => by
    obtain ⟨f, rfl⟩ : ∃ f, fuel = f + 1 := ⟨fuel - 1, by omega⟩
    have hlt : page < total.tdiv pageSize := by omega
    obtain ⟨list, hres⟩ := hall page (le_refl _) hlt
    rw [loop_step_ok env e total f page st list hlt hres,
      loop_all_ok env e total hpost n (page + 1) _ f (by omega) (by omega)
        (fun p hp => hall p (by omega)),
      getEmojiPage_requests env e page pageSize st.requests hpost, pagesFrom_succ]
    simp [pageEmoji_ok env e page list hres]

/-- The loop when the first `k` pages it asks for are answered and the next
request fails. -/
theorem loop_first_error (env : Env) (e : SlackExporter) (total : Int) (err : GoError)
    (hpost : env.NewRequestErr "POST" adminListAddress = none) :
    ∀ (k : Nat) (page : Int) (st : Listing) (fuel : Nat), k < fuel →
      page + (k : Int) < total.tdiv pageSize →
      (∀ p, page ≤ p → p < page + (k : Int) → ∃ list, pageResult env e p = .ok list) →
      pageResult env e (page + (k : Int)) = .error err →
      SlackExporter.listEmoji.loop env e total fuel page st
        = some (.error (.wrap ("list request for page #" ++ toString (page + (k : Int)) ++ ": ")
                  err),
            { requests := st.requests ++ (pagesFrom page (k + 1)).map (listRequest e),
              sink := st.sink ++ (pagesFrom page k).flatMap (pageEmoji env e) })
  | 0, page, st, fuel, hfuel, hlt, _, herr => by
    obtain ⟨f, rfl⟩ : ∃ f, fuel = f + 1 := ⟨fuel - 1, by omega⟩
    simp only [Nat.cast_zero, add_zero] at hlt herr ⊢
    rw [loop_step_error env e total f page st err hlt herr,
      getEmojiPage_requests env e page pageSize st.requests hpost, pagesFrom_zero,
      pagesFrom_one]
    simp
  | k + 1, page, st, fuel, hfuel, hlt, hall, herr => by
    obtain ⟨f, rfl⟩ : ∃ f, fuel = f + 1 := ⟨fuel - 1, by omega⟩
    have hlt0 : page < total.tdiv pageSize := by omega
    obtain ⟨list, hres⟩ := hall page (le_refl _) (by omega)
    have hk : page + ((k + 1 : Nat) : Int) = page + 1 + (k : Int) := by omega
    rw [hk] at hlt herr ⊢
    rw [loop_step_ok env e total f page st list hlt0 hres,
      loop_first_error env e total err hpost k (page + 1) _ f (by omega) hlt
        (fun p hp hp2 => hall p (by omega) (by omega)) herr,
      getEmojiPage_requests env e page pageSize st.requests hpost, pagesFrom_succ page (k + 1),
      pagesFrom_succ page k]
    simp [pageEmoji_ok env e page list hres]


/-- With every page it asks for answered, `listEmoji` asks for the pages
`1, ..., total/100 - 1`, each once and in order, and sends their records. -/
theorem listEmoji_all_ok (env : Env) (e : SlackExporter) (total : Int) (st : Listing)
    (hpost : env.NewRequestErr "POST" adminListAddress = none)
    (hall : ∀ p, 1 ≤ p → p < total.tdiv pageSize → ∃ list, pageResult env e p = .ok list) :
    e.listEmoji env total st
      = some (.ok (),
          { requests := st.requests
              ++ (pagesFrom 1 (total.tdiv pageSize - 1).toNat).map (listRequest e),
            sink := st.sink
              ++ (pagesFrom 1 (total.tdiv pageSize - 1).toNat).flatMap (pageEmoji env e) }) :=
  loop_all_ok env e total hpost _ 1 st _ (by omega) rfl hall

/-- C1, at `total = 250` with every request answered: `listEmoji` hands the
client one request, for page 1, although `250 / 100 = 2`; page 2 is not asked
for, because the loop runs while `page < total/pageSize`. -/
theorem listEmoji_250_requests_page_1_only :
    (250 : Int).tdiv pageSize = 2
      ∧ (Sample.exporter none).listEmoji (Sample.env 250) 250 { requests := [], sink := [] }
        = some (.ok (), { requests := [listRequest (Sample.exporter none) 1],
                          sink := [Sample.parrot, Sample.foo] })
      ∧ (Sample.exporter none).listEmoji (Sample.env 199) 199 { requests := [], sink := [] }
        = some (.ok (), { requests := [], sink := [] }) := by
  decide!

/-- C4: the records `listEmoji` sends are those of the pages it asks for, page
after page and in the order of each answer. (1) If every page below
`total/100` is answered, these are the pages `1, ..., total/100 - 1`. (2) If
page `k` is the first whose request fails, `listEmoji` returns the error
`list request for page #k: ` wrapping that failure, has asked for the pages
`1, ..., k` once each and for no other, and has sent the records of the pages
`1, ..., k - 1`. -/
theorem listEmoji_emits_pages_in_order (env : Env) (e : SlackExporter) (total : Int)
    (hpost : env.NewRequestErr "POST" adminListAddress = none) :
    ((∀ p, 1 ≤ p → p < total.tdiv pageSize → ∃ list, pageResult env e p = .ok list) →
      e.listEmoji env total { requests := [], sink := [] }
        = some (.ok (),
            { requests := (pagesFrom 1 (total.tdiv pageSize - 1).toNat).map (listRequest e),
              sink := (pagesFrom 1 (total.tdiv pageSize - 1).toNat).flatMap (pageEmoji env e) }))
    ∧ (∀ (k : Nat) (err : GoError), 1 ≤ k → (k : Int) < total.tdiv pageSize →
        (∀ p, 1 ≤ p → p < (k : Int) → ∃ list, pageResult env e p = .ok list) →
        pageResult env e (k : Int) = .error err →
        e.listEmoji env total { requests := [], sink := [] }
          = some (.error (.wrap ("list request for page #" ++ toString (k : Int) ++ ": ") err),
              { requests := (pagesFrom 1 k).map (listRequest e),
                sink := (pagesFrom 1 (k - 1)).flatMap (pageEmoji env e) })) := by
  constructor
  · intro hall
    rw [listEmoji_all_ok env e total _ hpost hall]
    simp
  · intro k err hk hlt hall herr
    obtain ⟨j, rfl⟩ : ∃ j, k = j + 1 := ⟨k - 1, by omega⟩
    have hj : (1 : Int) + (j : Int) = ((j + 1 : Nat) : Int) := by omega
    have := loop_first_error env e total err hpost j 1 { requests := [], sink := [] }
      ((total.tdiv pageSize).toNat + 1) (by omega) (by omega)
      (fun p hp hp2 => hall p hp (by omega)) (by rw [hj]; exact herr)
    rw [hj] at this
    simpa using this

/-- C4 on the sample server when the request for page 2 fails and `total` is 400. -/
theorem listEmoji_emits_pages_in_order_witness :
    (Sample.env 400).NewRequestErr "POST" adminListAddress = none
      ∧ (Sample.exporter (some "page=2&token=xoxs-1")).listEmoji (Sample.env 400) 400
          { requests := [], sink := [] }
        = some (.error (.wrap ("list request for page #" ++ toString ((2 : Nat) : Int) ++ ": ")
                  (.wrap "do request: " (.base "connection reset"))),
            { requests := (pagesFrom 1 2).map
                (listRequest (Sample.exporter (some "page=2&token=xoxs-1"))),
              sink := (pagesFrom 1 (2 - 1)).flatMap
                (pageEmoji (Sample.env 400) (Sample.exporter (some "page=2&token=xoxs-1"))) }) :=
  ⟨rfl,
    (listEmoji_emits_pages_in_order (Sample.env 400)
      (Sample.exporter (some "page=2&token=xoxs-1")) 400 rfl).2 2
      (.wrap "do request: " (.base "connection reset")) (by decide) (by decide)
      (fun p h1 h2 => by
        have hp : p = 1 := by omega
        subst hp
        exact ⟨Sample.page1 400, by decide!⟩)
      (by decide!)⟩

/-- C7, for the sample configuration (token `xoxs-1`, route `T0001`) and page
3: the request is a POST whose body is `page=3&token=xoxs-1`, and its address
is the bare endpoint, without any query: the route is added to the value
`u.Query()` returns, which is dropped, so no `slack_route` parameter is sent,
whatever `url.ParseQuery` does. -/
theorem getEmojiPage_request_carries_no_route :
    Sample.config.Slack.Route = "T0001"
      ∧ (∀ parseQuery : String → url.Values,
          SlackExporter.getEmojiPage.request { Sample.env 250 with ParseQuery := parseQuery }
              (Sample.exporter none) 3 100
            = .ok { Method := "POST", URL := "https://dd.slack.com/api/emoji.adminList",
                    Header := ⟨[("Content-Type", ["application/x-www-form-urlencoded"])]⟩,
                    Body := some "page=3&token=xoxs-1" })
      ∧ hasQueryParam adminListURL.RawQuery "slack_route" "T0001" = false :=
  ⟨rfl, fun parseQuery =>
    (request_eq { Sample.env 250 with ParseQuery := parseQuery } (Sample.exporter none) 3 100
      rfl).trans (congrArg Except.ok (by decide!)), by decide!⟩

/-- C8, on the sample server reporting 250 records: `checkEmojiCount` hands
the client one request, for page 1, and returns the reported total; the body
of the request is `page=1&token=xoxs-1`, with no page size in it, and the
request is the same for every `size` given to `getEmojiPage`. -/
theorem checkEmojiCount_request_has_no_size :
    (Sample.exporter none).checkEmojiCount (Sample.env 250) []
        = (.ok 250,
            [{ Method := "POST", URL := "https://dd.slack.com/api/emoji.adminList",
               Header := ⟨[("Content-Type", ["application/x-www-form-urlencoded"])]⟩,
               Body := some "page=1&token=xoxs-1" }])
      ∧ ∀ size : Int,
          SlackExporter.getEmojiPage.request (Sample.env 250) (Sample.exporter none) 1 size
            = SlackExporter.getEmojiPage.request (Sample.env 250) (Sample.exporter none) 1 1 :=
  ⟨by decide!, fun _ => rfl⟩

/-! ## Facts about `Run` -/

theorem Run_body_ok (env : Env) (e : SlackExporter) (emoji : SlackEmoji) (st st1 : RunState)
    (h : SlackExporter.Run.body env e emoji st = (none, st1)) :
    st1.requests = st.requests
      ∧ st1.downloads = st.downloads ++ [downloadRequest emoji]
      ∧ st1.stored = st.stored ++ [emoji]
      ∧ ∃ name b, fileName emoji.URL = .ok name
          ∧ env.Marshal { FileName := name, Emoji := emoji } = .ok b
          ∧ st1.store.catalog = st.store.catalog ++ (b ++ utf8 "\n") := by
  unfold SlackExporter.Run.body http.NewRequestWithContext at h
  split at h
  · simp at h
  · rename_i req hreq
    split at hreq
    · simp at hreq
    · simp only [Except.ok.injEq] at hreq
      subst hreq
      split at h
      · simp at h
      · rename_i res hres
        split at h
        · simp at h
        · rename_i store hstore
          simp only [Prod.mk.injEq, true_and] at h
          obtain ⟨name, b, hname, hb, _, hs⟩ := Store_ok env.toStoreEnv _ _ _ _ hstore
          subst h
          refine ⟨rfl, rfl, rfl, name, b, hname, hb, ?_⟩
          simp [hs]

theorem Run_loop_emoji_step (env : Env) (e : SlackExporter) (total i : Int) (r : SlackEmoji)
    (rest : List Event) (st st2 : RunState) (hlt : i < total)
    (hbody : SlackExporter.Run.body env e r st = (none, st2)) :
    SlackExporter.Run.loop env e total i (Event.emoji r :: rest) st
      = SlackExporter.Run.loop env e total (i + 1) rest st2 := by
  simp [SlackExporter.Run.loop, hlt, hbody]

/-- The loop over records that are all downloaded and stored, fewer than it
waits for: it goes on with whatever event comes next. -/
theorem Run_loop_records (env : Env) (e : SlackExporter) (total : Int) :
    ∀ (recs : List SlackEmoji) (i : Int) (st st1 : RunState),
      SlackExporter.Run.loop env e total i (recs.map Event.emoji) st = (.blocked, st1) →
      (∀ tail, SlackExporter.Run.loop env e total i (recs.map Event.emoji ++ tail) st
          = SlackExporter.Run.loop env e total (i + (recs.length : Int)) tail st1)
        ∧ i + (recs.length : Int) < total
        ∧ st1.requests = st.requests
        ∧ st1.downloads = st.downloads ++ recs.map downloadRequest
        ∧ st1.stored = st.stored ++ recs
        ∧ ∃ out : List (String × Bytes),
            List.Forall₂ (fun r nl => fileName r.URL = .ok nl.1
              ∧ env.Marshal { FileName := nl.1, Emoji := r } = .ok nl.2) recs out
            ∧ st1.store.catalog = st.store.catalog ++ out.flatMap (fun nl => nl.2 ++ [10])
  | [], i, st, st1, h => by
    simp only [List.map_nil, SlackExporter.Run.loop] at h
    split at h
    · rename_i hlt
      simp only [Prod.mk.injEq, true_and] at h
      subst h
      exact ⟨fun tail => by simp, by simpa using hlt, rfl, by simp, by simp,
        [], List.Forall₂.nil, by simp⟩
    · simp at h
  | r :: recs, i, st, st1, h => by
    simp only [List.map_cons, SlackExporter.Run.loop] at h
    split at h
    · rename_i hlt
      split at h
      · simp at h
      · rename_i st2 hbody
        obtain ⟨hreq, hdl, hstored, name, b, hname, hb, hcat⟩ := Run_body_ok env e r st st2 hbody
        obtain ⟨htail, hlt2, hreq2, hdl2, hstored2, out, hf, hcat2⟩ :=
          Run_loop_records env e total recs (i + 1) st2 st1 h
        refine ⟨fun tail => ?_, by simp only [List.length_cons, Nat.cast_add, Nat.cast_one]; omega,
          by rw [hreq2, hreq], by rw [hdl2, hdl]; simp, by rw [hstored2, hstored]; simp,
          (name, b) :: out, List.Forall₂.cons ⟨hname, hb⟩ hf, ?_⟩
        · rw [List.map_cons, List.cons_append, Run_loop_emoji_step env e total i r _ st st2 hlt hbody,
            htail tail]
          congr 1
          simp only [List.length_cons, Nat.cast_add, Nat.cast_one]
          omega
        · rw [hcat2, hcat]
          have : utf8 "\n" = [10] := by decide
          simp [List.flatMap_cons, this]
    · simp at h


/-- C6: let the loop of `Run` have taken the records `recs`, each downloaded
and stored, and be waiting for its next event (`hseen`). If that event is an
error of the listing goroutine, `Run` returns `list request: ` wrapping it; if
it is the context being done, `Run` returns `ctx.Err()`; whatever events would
follow. In both cases the downloads made and the `Store.Store` calls made are
those for `recs` and no more, and the catalog has grown by exactly one line
per record of `recs`, in order. -/
theorem Run_stops_at_list_error_or_cancel (env : Env) (e : SlackExporter) (total : Int)
    (recs : List SlackEmoji) (rest : List Event) (st st1 : RunState)
    (hseen : SlackExporter.Run.loop env e total 0 (recs.map Event.emoji) st = (.blocked, st1)) :
    (∀ err, SlackExporter.Run.loop env e total 0
        (recs.map Event.emoji ++ Event.listErr err :: rest) st
          = (.returned (some (.wrap "list request: " err)), st1))
      ∧ (∀ cause, SlackExporter.Run.loop env e total 0
          (recs.map Event.emoji ++ Event.done cause :: rest) st
            = (.returned (some cause), st1))
      ∧ st1.downloads = st.downloads ++ recs.map downloadRequest
      ∧ st1.stored = st.stored ++ recs
      ∧ ∃ out : List (String × Bytes),
          List.Forall₂ (fun r nl => fileName r.URL = .ok nl.1
            ∧ env.Marshal { FileName := nl.1, Emoji := r } = .ok nl.2) recs out
          ∧ st1.store.catalog = st.store.catalog ++ out.flatMap (fun nl => nl.2 ++ [10]) := by
  obtain ⟨htail, hlt, _, hdl, hstored, hout⟩ := Run_loop_records env e total recs 0 st st1 hseen
  rw [zero_add] at hlt
  refine ⟨fun err => ?_, fun cause => ?_, hdl, hstored, hout⟩
  · rw [htail]
    simp [SlackExporter.Run.loop, hlt]
  · rw [htail]
    simp [SlackExporter.Run.loop, hlt]

/-- C6 on the sample server: one record stored, then the goroutine's error
or the cancellation, with a further record behind it. -/
theorem Run_stops_at_list_error_or_cancel_witness :
    SlackExporter.Run.loop (Sample.env 300) (Sample.exporter none) 300 0
        ([Sample.parrot].map Event.emoji)
        { store := Sample.store, requests := [], downloads := [], stored := [] }
      = (.blocked, (SlackExporter.Run.loop (Sample.env 300) (Sample.exporter none) 300 0
          ([Sample.parrot].map Event.emoji)
          { store := Sample.store, requests := [], downloads := [], stored := [] }).2)
    ∧ SlackExporter.Run.loop (Sample.env 300) (Sample.exporter none) 300 0
        ([Sample.parrot].map Event.emoji
          ++ Event.listErr (.base "connection reset") :: [Event.emoji Sample.foo])
        { store := Sample.store, requests := [], downloads := [], stored := [] }
      = (.returned (some (.wrap "list request: " (.base "connection reset"))),
          (SlackExporter.Run.loop (Sample.env 300) (Sample.exporter none) 300 0
            ([Sample.parrot].map Event.emoji)
            { store := Sample.store, requests := [], downloads := [], stored := [] }).2)
    ∧ (SlackExporter.Run.loop (Sample.env 300) (Sample.exporter none) 300 0
          ([Sample.parrot].map Event.emoji)
          { store := Sample.store, requests := [], downloads := [], stored := [] }).2.stored
        = [] ++ [Sample.parrot] :=
  have h := Run_stops_at_list_error_or_cancel (Sample.env 300) (Sample.exporter none) 300
    [Sample.parrot] [Event.emoji Sample.foo]
    { store := Sample.store, requests := [], downloads := [], stored := [] } _ (by decide!)
  ⟨by decide!, h.1 (.base "connection reset"), h.2.2.2.1⟩

/-- C5: when `checkEmojiCount` reports a total of 0, `Run` returns `nil`
without any download and without any call of `Store.Store`, leaving the store
as it was, whether or not the context is done; and the listing goroutine asks
for no page and offers no event. -/
theorem Run_total_zero (env : Env) (e : SlackExporter) (requests : List Request)
    (cancel : Option (Nat × GoError)) (store : Store)
    (hcount : e.checkEmojiCount env [] = (.ok 0, requests)) :
    e.Run env cancel store
        = (.returned none,
            { store := store, requests := requests, downloads := [], stored := [] })
      ∧ SlackExporter.Run.producer env e 0 requests = ([], requests) := by
  have hloop : ∀ (evs : List Event) (st : RunState),
      SlackExporter.Run.loop env e 0 0 evs st = (.returned none, st) := by
    intro evs st
    cases evs <;> simp [SlackExporter.Run.loop]
  have hlist : e.listEmoji env 0 { requests := requests, sink := [] }
      = some (.ok (), { requests := requests, sink := [] }) :=
    loop_done env e 0 _ 1 _ (by decide)
  constructor
  · simp only [SlackExporter.Run, hcount]
    exact hloop _ _
  · simp [SlackExporter.Run.producer, hlist]

/-- C5 on the sample server reporting a total of 0. -/
theorem Run_total_zero_witness :
    (Sample.exporter none).checkEmojiCount (Sample.env 0) []
        = (.ok 0, [listRequest (Sample.exporter none) 1])
      ∧ (Sample.exporter none).Run (Sample.env 0) none Sample.store
        = (.returned none,
            { store := Sample.store, requests := [listRequest (Sample.exporter none) 1],
              downloads := [], stored := [] })
      ∧ SlackExporter.Run.producer (Sample.env 0) (Sample.exporter none) 0
          [listRequest (Sample.exporter none) 1]
        = ([], [listRequest (Sample.exporter none) 1]) :=
  ⟨by decide!,
    Run_total_zero (Sample.env 0) (Sample.exporter none) [listRequest (Sample.exporter none) 1]
      none Sample.store (by decide!)⟩

/-- The method `listEmoji` always returns: its loop never runs out of fuel. -/
theorem listEmoji_returns (env : Env) (e : SlackExporter) (total : Int) (st : Listing) :
    ∃ res st1, e.listEmoji env total st = some (res, st1) := by
  have hloop : ∀ (fuel : Nat) (page : Int) (st : Listing),
      (total.tdiv pageSize - page).toNat < fuel →
      ∃ res st1, SlackExporter.listEmoji.loop env e total fuel page st = some (res, st1) := by
    intro fuel
    induction fuel with
    | zero => intro _ _ h; omega
    | succ fuel ih =>
      intro page st h
      by_cases hlt : page < total.tdiv pageSize
      · cases hres : pageResult env e page with
        | error err => exact ⟨_, _, loop_step_error env e total fuel page st err hlt hres⟩
        | ok list =>
          rw [loop_step_ok env e total fuel page st list hlt hres]
          exact ih _ _ (by omega)
      · exact ⟨_, _, loop_done env e total fuel page st hlt⟩
  exact hloop _ 1 st (by omega)

/-- The loop of `listEmoji` ends with the fuel `listEmoji` gives it, and sends
at most 100 records per page still to ask for, when no answer holds more. -/
theorem loop_sink_bound (env : Env) (e : SlackExporter) (total : Int)
    (hpages : ∀ p list, pageResult env e p = .ok list → list.Emoji.length ≤ 100) :
    ∀ (fuel : Nat) (page : Int) (st : Listing),
      (total.tdiv pageSize - page).toNat < fuel →
      ∃ res st1, SlackExporter.listEmoji.loop env e total fuel page st = some (res, st1)
        ∧ st1.sink.length ≤ st.sink.length + 100 * (total.tdiv pageSize - page).toNat
  | 0, _, _, h => by omega
  | fuel + 1, page, st, h => by
    by_cases hlt : page < total.tdiv pageSize
    · cases hres : pageResult env e page with
      | error err =>
        exact ⟨_, _, loop_step_error env e total fuel page st err hlt hres, by simp⟩
      | ok list =>
        obtain ⟨res, st1, hloop, hbound⟩ := loop_sink_bound env e total hpages fuel (page + 1)
          { requests := (e.getEmojiPage env page pageSize st.requests).2,
            sink := st.sink ++ list.Emoji } (by omega)
        refine ⟨res, st1, by rw [loop_step_ok env e total fuel page st list hlt hres, hloop], ?_⟩
        have := hpages page list hres
        simp only [List.length_append] at hbound
        omega
    · exact ⟨_, _, loop_done env e total fuel page st hlt, by omega⟩

/-- The loop of `Run` returns `nil` only after as many records as it still
waits for. -/
theorem Run_loop_nil_needs_records (env : Env) (e : SlackExporter) (total : Int) :
    ∀ (evs : List Event) (i : Int) (st st1 : RunState),
      SlackExporter.Run.loop env e total i evs st = (.returned none, st1) →
      total - i ≤ ((evs.countP Event.isEmoji : Nat) : Int)
  | [], i, st, st1, h => by
    simp only [SlackExporter.Run.loop] at h
    split at h
    · simp at h
    · simp only [List.countP_nil, Nat.cast_zero]
      omega
  | ev :: rest, i, st, st1, h => by
    simp only [SlackExporter.Run.loop] at h
    split at h
    · split at h
      · simp at h
      · simp at h
      · split at h
        · simp at h
        · have := Run_loop_nil_needs_records env e total rest (i + 1) _ st1 h
          simp only [List.countP_cons, Event.isEmoji, if_true, Nat.cast_add, Nat.cast_one]
          omega
    · have : (0 : Int) ≤ ((List.countP Event.isEmoji (ev :: rest) : Nat) : Int) :=
        Int.ofNat_nonneg _
      omega

theorem countP_isEmoji_map (sink : List SlackEmoji) :
    (sink.map Event.emoji).countP Event.isEmoji = sink.length := by
  induction sink with
  | nil => rfl
  | cons r rs ih => simp [List.countP_cons, Event.isEmoji, ih]

theorem countP_events_le (offered : List Event) (cancel : Option (Nat × GoError)) :
    (SlackExporter.Run.events offered cancel).countP Event.isEmoji
      ≤ offered.countP Event.isEmoji := by
  cases cancel with
  | none => exact le_refl _
  | some nc =>
    obtain ⟨n, cause⟩ := nc
    simp only [SlackExporter.Run.events, List.countP_append, List.countP_cons, List.countP_nil,
      Event.isEmoji]
    have := (List.take_sublist n offered).countP_le Event.isEmoji
    simpa using this


/-- C10: when the reported total is at least 1 and no answer to a listing
request holds more than 100 records, `listEmoji` ends having sent fewer than
`total` records, and `Run`, whose loop waits for `total` records, does not
return `nil`, whether or not the context is done. -/
theorem listEmoji_sends_fewer_than_total (env : Env) (e : SlackExporter) (total : Int)
    (htotal : 1 ≤ total)
    (hpages : ∀ p list, pageResult env e p = .ok list → list.Emoji.length ≤ 100) :
    (∀ requests, ∃ res st1,
        e.listEmoji env total { requests := requests, sink := [] } = some (res, st1)
          ∧ (st1.sink.length : Int) < total)
      ∧ (∀ cancel store, (e.checkEmojiCount env []).1 = .ok total →
          (e.Run env cancel store).1 ≠ .returned none) := by
  have hlist : ∀ requests, ∃ res st1,
      e.listEmoji env total { requests := requests, sink := [] } = some (res, st1)
        ∧ (st1.sink.length : Int) < total := by
    intro requests
    obtain ⟨res, st1, hloop, hbound⟩ := loop_sink_bound env e total hpages
      ((total.tdiv pageSize).toNat + 1) 1 { requests := requests, sink := [] } (by omega)
    refine ⟨res, st1, hloop, ?_⟩
    have hdiv : total.tdiv pageSize = total / 100 :=
      Int.tdiv_eq_ediv (by omega) (by decide)
    rw [hdiv] at hbound
    simp only [List.length_nil, zero_add] at hbound
    omega
  refine ⟨hlist, ?_⟩
  intro cancel store hcount hrun
  cases hc : e.checkEmojiCount env [] with
  | mk r requests =>
    rw [hc] at hcount
    simp only at hcount
    subst hcount
    obtain ⟨res, st1, hl, hlt⟩ := hlist requests
    have hoffered : ((SlackExporter.Run.producer env e total requests).1.countP Event.isEmoji
        : Nat) = st1.sink.length := by
      unfold SlackExporter.Run.producer
      rw [hl]
      cases res with
      | ok u => exact countP_isEmoji_map _
      | error err =>
        simp only [List.countP_append, countP_isEmoji_map, List.countP_cons, List.countP_nil,
          Event.isEmoji]
        simp
    simp only [SlackExporter.Run, hc] at hrun
    cases hloop : SlackExporter.Run.loop env e total 0
        (SlackExporter.Run.events (SlackExporter.Run.producer env e total requests).1 cancel)
        { store := store, requests := requests, downloads := [], stored := [] } with
    | mk o st2 =>
      rw [hloop] at hrun
      simp only at hrun
      subst hrun
      have h1 := Run_loop_nil_needs_records env e total _ 0 _ st2 hloop
      have h2 := countP_events_le (SlackExporter.Run.producer env e total requests).1 cancel
      omega

/-- An answer of `getEmojiPage` is what the decoder made of some body. -/
theorem pageResult_ok_unmarshal (env : Env) (e : SlackExporter) (p : Int) (list : ListResponse)
    (h : pageResult env e p = .ok list) : ∃ body, env.Unmarshal body = .ok list := by
  unfold pageResult SlackExporter.getEmojiPage at h
  split at h
  · simp at h
  · split at h
    · simp at h
    · split at h
      · simp at h
      · split at h
        · simp at h
        · rename_i list1 hlist
          simp only [Except.ok.injEq] at h
          exact ⟨_, by rw [hlist, h]⟩

/-- No answer of the sample server holds more than 100 records. -/
theorem Sample_pages_small (total : Int) (p : Int) (list : ListResponse)
    (h : pageResult (Sample.env total) (Sample.exporter none) p = .ok list) :
    list.Emoji.length ≤ 100 := by
  obtain ⟨body, hbody⟩ := pageResult_ok_unmarshal _ _ _ _ h
  simp only [Sample.env, Sample.unmarshal] at hbody
  split at hbody
  · simp only [Except.ok.injEq] at hbody
    subst hbody
    simp [Sample.page1]
  · split at hbody
    · simp only [Except.ok.injEq] at hbody
      subst hbody
      simp [Sample.page2]
    · simp only [Except.ok.injEq] at hbody
      subst hbody
      simp [Sample.pageEmpty]

/-- C10 on the sample server reporting 250 records, without cancellation. -/
theorem listEmoji_sends_fewer_than_total_witness :
    (1 : Int) ≤ 250
      ∧ ((Sample.exporter none).checkEmojiCount (Sample.env 250) []).1 = .ok 250
      ∧ ((Sample.exporter none).Run (Sample.env 250) none Sample.store).1 ≠ .returned none :=
  ⟨by decide, by decide!,
    (listEmoji_sends_fewer_than_total (Sample.env 250) (Sample.exporter none) 250 (by decide)
      (Sample_pages_small 250)).2 none Sample.store (by decide!)⟩

end EmojiTransport
